import Mathlib

/-!
Verification of the drum_matrix step sequencer (SequencerEngine and the
SequencerDemo scheduling code) against its natural-language specification.

The definitions below are a shallow embedding of the JavaScript source:
audio-clock times and gain values are modelled as exact rationals, the
playback-rate computation (which involves 2^(semitones/12)) as reals,
JS arrays as Lean lists with the JS out-of-bounds behaviour (an index miss
yields undefined, which is falsy) made explicit, and the React effect /
scheduler interplay as explicit state-passing functions.
-/

set_option maxHeartbeats 1000000

/-! ### Note lengths and step interval

Embeds the noteDivisors map and the step-interval effect of SequencerDemo
(`const divisor = noteDivisors[noteLength] || 4; const sec = 60 / bpm / divisor;
const slicesPerBar = divisor * 4;`).  The noteLength state only ever holds one
of the four listed strings, so it is embedded as an enumeration and the
`|| 4` fallback for unknown keys cannot fire. -/

inductive NoteLength where
  | quarter
  | eighth
  | sixteenth
  | thirtysecond
deriving DecidableEq

/-- Divisor assigned to each note length by the noteDivisors map. -/
def noteDivisor : NoteLength → ℕ
  | .quarter => 1
  | .eighth => 2
  | .sixteenth => 4
  | .thirtysecond => 8

/-- Step interval in seconds: `60 / bpm / divisor` (SequencerDemo step-interval effect). -/
def stepIntervalSec (bpm : ℚ) (nl : NoteLength) : ℚ :=
  60 / bpm / (noteDivisor nl : ℚ)

/-- Breakbeat slice count: `slicesPerBar = divisor * 4` (same effect). -/
def slicesPerBar (nl : NoteLength) : ℕ :=
  noteDivisor nl * 4

/-! ### Selection window and the lookahead scheduler

Embeds the scheduling refs of SequencerDemo (`selectionRef`,
`pendingSelectionRef`, `nextStepTimeRef`, `currentColRef`, `absoluteTimeRef`,
`stepIntervalSec`) and the body of the `scheduler()` while loop. -/

structure Selection where
  startRow : ℤ
  startCol : ℤ
  length : ℕ
deriving DecidableEq

structure SchedUIState where
  /-- `selectionRef.current`: the selection object the scheduler reads. -/
  selectionRefVal : Selection
  /-- `pendingSelectionRef.current`: staged selection plus its switchTime. -/
  pendingChange : Option (Selection × ℚ)
  /-- `nextStepTimeRef.current` (audio-clock seconds). -/
  nextStepTime : ℚ
  /-- `currentColRef.current` (step cursor). -/
  currentCol : ℕ
  /-- `absoluteTimeRef.current`: audio time at which playback started. -/
  absoluteTime : ℚ
  /-- `stepIntervalSec` React state captured by the scheduler closure. -/
  stepIntervalSec : ℚ
deriving DecidableEq

/-- One step emission: `scheduleStep(stepIdx, nextStepTimeRef.current)` together
with the selection object `scheduleStep` will read from `selectionRef`. -/
structure EmittedStep where
  stepIndex : ℕ
  time : ℚ
  sel : Selection
deriving DecidableEq

/-- Pending-selection check at the top of the scheduler while loop: when
`nextStepTimeRef.current >= pending.switchTime` the cursor is recomputed as
`Math.floor(elapsedSequenceTime / secPerStep) % Math.max(1, pending.selection.length)`
and the pending record is cleared.  In every reachable state
`nextStepTime >= absoluteTime`, so JS `Math.floor`/`%` agree with
`Int.toNat ∘ Int.floor` and `Nat.mod` used here. -/
def applyPendingChange (s : SchedUIState) : SchedUIState :=
  match s.pendingChange with
  | none => s
  | some (psel, switchTime) =>
      if switchTime ≤ s.nextStepTime then
        { s with
          currentCol :=
            (Int.toNat ⌊(s.nextStepTime - s.absoluteTime) / s.stepIntervalSec⌋)
              % max 1 psel.length,
          pendingChange := none }
      else s

/-- One iteration of the scheduler while loop: apply a due pending change,
emit the step at the cursor for time `nextStepTime`, then advance
`nextStepTime += secPerStep` and `currentCol = (currentCol + 1) % len`
with `len = Math.max(1, sel.length || 1)` (for `sel.length = 0` both the
`|| 1` and the `max` yield 1, so `max 1 sel.length` is exact). -/
def schedIterate (s : SchedUIState) : SchedUIState × EmittedStep :=
  let s1 := applyPendingChange s
  let sel := s1.selectionRefVal
  let emitted : EmittedStep := ⟨s1.currentCol, s1.nextStepTime, sel⟩
  let len := max 1 sel.length
  ({ s1 with
      nextStepTime := s1.nextStepTime + s1.stepIntervalSec,
      currentCol := (s1.currentCol + 1) % len },
   emitted)

/-- n consecutive scheduler-loop iterations (sustained play across ticks). -/
def schedRunN : ℕ → SchedUIState → SchedUIState
  | 0, s => s
  | n + 1, s => schedRunN n (schedIterate s).1

/-- One scheduler tick at audio time `tNow`: runs loop iterations while
`nextStepTime < tNow + 0.1` (the 100ms schedule-ahead horizon), collecting the
emitted steps.  `fuel` bounds the iteration count; with enough fuel the run is
exactly the JS while loop. -/
def schedulerTick : ℕ → ℚ → SchedUIState → SchedUIState × List EmittedStep
  | 0, _, s => (s, [])
  | fuel + 1, tNow, s =>
      if s.nextStepTime < tNow + 1/10 then
        ((schedulerTick fuel tNow (schedIterate s).1).1,
          (schedIterate s).2 :: (schedulerTick fuel tNow (schedIterate s).1).2)
      else (s, [])

/-- Minimum lead time for a pending selection switch (25ms). -/
def minSwitchLead : ℚ := 1/40

/-- Effect of a selection edit issued at audio time `tNow` while Running, as it
lands in the scheduler-visible state after the React commit:
`scheduleSelectionChange` / the drag handlers call `setSelection(newSel)`;
the keep-refs-in-sync effect (`useEffect` on `[selection]`) then assigns
`selectionRef.current = selection` at commit time, and the pending-selection
effect (`useEffect` on `[selection.startCol, selection.startRow,
selection.length]`) stores `pendingSelectionRef.current = { selection,
switchTime }` with `switchTime = max(audioNow + 0.025, absoluteTime +
ceil(elapsed / secPerStep) * secPerStep)`.  The `setTimeout` armed by
`scheduleSelectionChange` assigns `selectionRef.current = newSelection` again
later, which by then is a no-op on the state modelled here. -/
def applySelectionEdit (tNow : ℚ) (newSel : Selection) (s : SchedUIState) : SchedUIState :=
  let minSwitchTime := tNow + minSwitchLead
  let elapsedTime := tNow - s.absoluteTime
  let nextStepBoundary := (⌈elapsedTime / s.stepIntervalSec⌉ : ℚ) * s.stepIntervalSec
  let nextBeatTime := s.absoluteTime + nextStepBoundary
  let switchTime := max minSwitchTime nextBeatTime
  { s with
    selectionRefVal := newSel,
    pendingChange := some (newSel, switchTime) }

/-! ### Breakbeat playback rate (playBreakbeatSlice, lines 96-105)

`tempoPlaybackRate = currentBPM / breakbeatBPM`,
`pitchPlaybackRate = Math.pow(2, breakbeatPitch / 12)`,
`playbackRate = tempoPlaybackRate * pitchPlaybackRate`.
The pitch factor is a real power, so this fragment is embedded over the
reals. -/

noncomputable def tempoPlaybackRate (currentBPM breakbeatBPM : ℝ) : ℝ :=
  currentBPM / breakbeatBPM

noncomputable def pitchPlaybackRate (breakbeatPitch : ℤ) : ℝ :=
  (2 : ℝ) ^ ((breakbeatPitch : ℝ) / 12)

noncomputable def playbackRate (currentBPM breakbeatBPM : ℝ) (breakbeatPitch : ℤ) : ℝ :=
  tempoPlaybackRate currentBPM breakbeatBPM * pitchPlaybackRate breakbeatPitch

/-! ### Breakbeat mutual-exclusion fade (playBreakbeatSlice, lines 136-162)

When a new slice is scheduled for `playTime`, every source in
`_breakbeatSources` gets `gain.gain.setValueAtTime(currentGain, stopAtBase)`
then `linearRampToValueAtTime(0.0001, stopAt)` and `s.stop(stopAt)`, where
`stopAtBase = Math.max(now, playTime)` and `stopAt = stopAtBase + 0.002`. -/

def bbFadeOutTime : ℚ := 1/500

def silenceFloor : ℚ := 1/10000

def bbStopAtBase (now playTime : ℚ) : ℚ := max now playTime

def bbStopAt (now playTime : ℚ) : ℚ := bbStopAtBase now playTime + bbFadeOutTime

/-- Output level of an already-playing (continuous-mode) breakbeat slice after
the fade-stop above is applied to it: it holds `currentGain` until `stopBase`,
ramps linearly down to the 0.0001 floor at `stopTime`, and is silent once the
source has stopped at `stopTime`. -/
def fadedSliceGain (currentGain stopBase stopTime t : ℚ) : ℚ :=
  if t < stopBase then currentGain
  else if t < stopTime then
    currentGain + (silenceFloor - currentGain) * ((t - stopBase) / (stopTime - stopBase))
  else 0

/-- Output level of the newly started continuous-mode slice: silent before its
`source.start(playTime)`, then at `targetGain` (lines 183-184, 216-225). -/
def newSliceGain (targetGain playTime t : ℚ) : ℚ :=
  if t < playTime then 0 else targetGain

/-! ### JS array reads and the no-op guards

`jsBoolAt l i` is the truthiness of `l[i]` in JS: an in-range read yields the
stored boolean, any out-of-range or negative index yields undefined, which is
falsy. -/

def jsBoolAt (l : List Bool) (i : ℤ) : Bool :=
  if 0 ≤ i then l.getD i.toNat false else false

/-- Guard structure of `triggerRow(rowIndex, ...)` (lines 286-300): returns
without doing anything when the index is out of `[0, numRows)` or the row is
muted; otherwise it proceeds to fire the visual callback and a playback call. -/
def triggerRowFires (numRows : ℕ) (muted : List Bool) (rowIndex : ℤ) : Bool :=
  if rowIndex < 0 ∨ (numRows : ℤ) ≤ rowIndex then false
  else if jsBoolAt muted rowIndex then false
  else true

/-- Guard structure of `playBreakbeatSlice(sliceIndex, ...)` (lines 81-91):
returns early when no breakbeat buffer is loaded or `this.muted[sliceIndex]`
is truthy; there is no index-range check, so any other index — in range or
not — proceeds to the source-creation and start calls. -/
def playBreakbeatSliceFires (hasBuffer : Bool) (muted : List Bool) (sliceIndex : ℤ) : Bool :=
  if !hasBuffer then false
  else if jsBoolAt muted sliceIndex then false
  else true

/-! ### Computed gains (playBreakbeatSlice lines 175-184, _playSample lines 341-351)

`velocityFactor = (velocity / 127) || 1.0` (the JS `||` replaces a zero or NaN
quotient by 1.0; over the rationals only the zero case can arise).  In
`playBreakbeatSlice`, `targetGain = volumes[sliceIndex] * velocityFactor` is
clamped: `if (!isFinite(targetGain) || targetGain <= 0) targetGain = 1.0`
(over the rationals the finiteness test is always true, leaving the
non-positivity test).  In `_playSample` the product is applied directly with
no clamp. -/

def velocityFactor (velocity : ℚ) : ℚ :=
  if velocity / 127 = 0 then 1 else velocity / 127

def breakbeatTargetGain (volume velocity : ℚ) : ℚ :=
  if volume * velocityFactor velocity ≤ 0 then 1 else volume * velocityFactor velocity

def sampleTargetGain (volume velocity : ℚ) : ℚ :=
  volume * velocityFactor velocity

/-! ### Slice mute/volume array resize (step-interval effect, lines 627-645)

`setSliceMute` and `setSliceVolumes` build `new Array(slicesPerBar)` filled
with `false` resp. `1`, then copy `prev[i]` for
`i < Math.min(prev.length, slicesPerBar)`. -/

def resizeArray {α : Type} (prev : List α) (n : ℕ) (fill : α) : List α :=
  (List.range n).map (fun i => if i < prev.length then prev.getD i fill else fill)

def sliceMuteResize (prev : List Bool) (n : ℕ) : List Bool :=
  resizeArray prev n false

def sliceVolumesResize (prev : List ℚ) (n : ℕ) : List ℚ :=
  resizeArray prev n 1

/-! ### Global cancellation (cancelScheduled, lines 304-333)

Clears every timeout in `_scheduledTimeouts`, schedules a 5ms fade and a stop
at `now + 0.005` for every source in `_scheduledSources`, then clears
`_scheduledSources`, `_scheduledGains` and `_breakbeatSources`.  Sources and
timers are identified here by numeric handles. -/

structure EngineRegistries where
  scheduledTimeouts : List ℕ
  scheduledSources : List ℕ
  scheduledGains : List (ℕ × ℕ)
  breakbeatSources : List ℕ
deriving DecidableEq

inductive CancelAction where
  | clearTimeout (id : ℕ)
  | fadeAndStop (sourceId : ℕ) (stopTime : ℚ)
deriving DecidableEq

def cancelFadeOutTime : ℚ := 1/200

def cancelScheduled (now : ℚ) (s : EngineRegistries) : EngineRegistries × List CancelAction :=
  (⟨[], [], [], []⟩,
   s.scheduledTimeouts.map CancelAction.clearTimeout ++
     s.scheduledSources.map (fun src => CancelAction.fadeAndStop src (now + cancelFadeOutTime)))

/-! ### Breakbeat branch of scheduleStep (lines 713-749)

The grid is a 64x64 row-major byte array; `cellActiveAt` is the loop-body
test `row < 0 || row >= ROWS || col < 0 || col >= COLS -> continue` followed
by the truthiness of `gridBuf[row * COLS + col]`.  The winning slice is found
by the for loop with break (first active row from the top of the window), and
it is triggered only if additionally `!m[winningSlice]`. -/

def gridROWS : ℕ := 64

def gridCOLS : ℕ := 64

def cellActiveAt (grid : ℕ → Bool) (startRow startCol : ℤ) (r colIndex : ℕ) : Bool :=
  let row := startRow + r
  let col := startCol + colIndex
  if 0 ≤ row ∧ row < (gridROWS : ℤ) ∧ 0 ≤ col ∧ col < (gridCOLS : ℤ) then
    grid (row.toNat * gridCOLS + col.toNat)
  else false

/-- For loop with break: scan `fuel` rows starting at row offset `r`, return
the first offset whose cell is active. -/
def firstActiveAux (grid : ℕ → Bool) (startRow startCol : ℤ) (colIndex : ℕ) :
    ℕ → ℕ → Option ℕ
  | _, 0 => none
  | r, fuel + 1 =>
      if cellActiveAt grid startRow startCol r colIndex then some r
      else firstActiveAux grid startRow startCol colIndex (r + 1) fuel

def winningSlice (grid : ℕ → Bool) (startRow startCol : ℤ) (rowCount colIndex : ℕ) :
    Option ℕ :=
  firstActiveAux grid startRow startCol colIndex 0 rowCount

/-- The slice actually handed to `engine.playBreakbeatSlice` by the breakbeat
branch of `scheduleStep`, if any: the winning slice provided it is not muted
(`winningSlice >= 0 && !m[winningSlice]`). -/
def breakbeatTrigger (grid : ℕ → Bool) (startRow startCol : ℤ) (rowCount colIndex : ℕ)
    (sliceMuteArr : List Bool) : Option ℕ :=
  match winningSlice grid startRow startCol rowCount colIndex with
  | none => none
  | some w => if sliceMuteArr.getD w false then none else some w

/-! ## Theorems -/

/-- C5 (confirmed): the step interval used for scheduling equals
`60 / BPM / divisor(noteLength)` with divisor mapping 1/4 to 1, 1/8 to 2,
1/16 to 4 and 1/32 to 8, and in breakbeat mode the slice count equals
`divisor * 4`; in particular BPM 175 with note length 1/8 yields a step
interval of `60/175/2 = 6/35` seconds (about 0.1714s) and a slice count
of 8. -/
theorem c5_step_interval_and_slices :
    noteDivisor NoteLength.quarter = 1 ∧ noteDivisor NoteLength.eighth = 2 ∧
    noteDivisor NoteLength.sixteenth = 4 ∧ noteDivisor NoteLength.thirtysecond = 8 ∧
    (∀ nl, slicesPerBar nl = noteDivisor nl * 4) ∧
    (∀ (bpm : ℚ) (nl : NoteLength), stepIntervalSec bpm nl = 60 / bpm / (noteDivisor nl : ℚ)) ∧
    stepIntervalSec 175 NoteLength.eighth = 6/35 ∧
    slicesPerBar NoteLength.eighth = 8 :=
  ⟨rfl, rfl, rfl, rfl, fun _ => rfl, fun _ _ => rfl,
    by norm_num [stepIntervalSec, noteDivisor], rfl⟩

/-- C4 (confirmed): `playBreakbeatSlice` sets the playback rate of the new
source to `(currentBPM / breakbeatBPM) * 2 ^ (breakbeatPitch / 12)`; for
source BPM 175, target BPM 140, pitch 0 the rate equals 4/5 = 0.8, and for
source BPM 120, target BPM 120, pitch +12 the rate equals exactly 2. -/
theorem c4_playback_rate :
    (∀ (c b : ℝ) (p : ℤ), playbackRate c b p = c / b * (2 : ℝ) ^ ((p : ℝ) / 12)) ∧
    playbackRate 140 175 0 = 4/5 ∧
    playbackRate 120 120 12 = 2 := by
  refine ⟨fun c b p => rfl, ?_, ?_⟩
  · show tempoPlaybackRate 140 175 * pitchPlaybackRate 0 = 4/5
    have h0 : ((0 : ℤ) : ℝ) / 12 = 0 := by norm_num
    rw [tempoPlaybackRate, pitchPlaybackRate, h0, Real.rpow_zero]
    norm_num
  · show tempoPlaybackRate 120 120 * pitchPlaybackRate 12 = 2
    have h1 : ((12 : ℤ) : ℝ) / 12 = 1 := by norm_num
    rw [tempoPlaybackRate, pitchPlaybackRate, h1, Real.rpow_one]
    norm_num

/-- C9 (confirmed): `cancelScheduled` always leaves all four registries
(scheduled timeouts, scheduled sources, scheduled gains, breakbeat sources)
empty, and a second call — at any later clock time, including while Stopped
with nothing playing — returns the same empty state and issues no further
cancellation actions, so calling it twice equals calling it once. -/
theorem c9_cancel_idempotent (now now2 : ℚ) (s : EngineRegistries) :
    (cancelScheduled now s).1.scheduledTimeouts = [] ∧
    (cancelScheduled now s).1.scheduledSources = [] ∧
    (cancelScheduled now s).1.scheduledGains = [] ∧
    (cancelScheduled now s).1.breakbeatSources = [] ∧
    cancelScheduled now2 (cancelScheduled now s).1 = ((cancelScheduled now s).1, []) :=
  ⟨rfl, rfl, rfl, rfl, rfl⟩

/-- C6 (counterexample): the claim states that `playBreakbeatSlice` is a
silent no-op when the slice index is out of range, but the function performs
no range check: with a buffer loaded and 8 unmuted slices, slice index 8 (out
of range) proceeds past the guards — the undefined mute lookup is falsy — and
the source-creation and start calls are issued. -/
theorem c6_counterexample :
    playBreakbeatSliceFires true (List.replicate 8 false) 8 = true := by decide

/-- C6 (amended): `triggerRow` is a silent no-op when the row index is out of
`[0, numRows)` or the row is muted, and `playBreakbeatSlice` is a silent no-op
when no source buffer is loaded or the requested slice is muted; but
`playBreakbeatSlice` performs no slice-index range check — whenever a buffer
is loaded and the mute lookup is falsy (in particular for every out-of-range
index) it proceeds to issue the playback calls. -/
theorem c6_amended (numRows : ℕ) (muted : List Bool) (i : ℤ) :
    ((i < 0 ∨ (numRows : ℤ) ≤ i) → triggerRowFires numRows muted i = false) ∧
    (jsBoolAt muted i = true → triggerRowFires numRows muted i = false) ∧
    playBreakbeatSliceFires false muted i = false ∧
    (jsBoolAt muted i = true → playBreakbeatSliceFires true muted i = false) ∧
    (jsBoolAt muted i = false → playBreakbeatSliceFires true muted i = true) := by
  refine ⟨?_, ?_, rfl, ?_, ?_⟩
  · intro h; simp [triggerRowFires, h]
  · intro h; simp [triggerRowFires, h]
  · intro h; simp [playBreakbeatSliceFires, h]
  · intro h; simp [playBreakbeatSliceFires, h]

/-- C6 (witness): with four rows, row 1 muted, both `triggerRow` and
`playBreakbeatSlice` are no-ops for index 1. -/
theorem c6_witness :
    jsBoolAt [false, true, false, false] 1 = true ∧
    triggerRowFires 4 [false, true, false, false] 1 = false ∧
    playBreakbeatSliceFires true [false, true, false, false] 1 = false :=
  ⟨by decide, (c6_amended 4 [false, true, false, false] 1).2.1 (by decide),
    (c6_amended 4 [false, true, false, false] 1).2.2.2.1 (by decide)⟩

/-- C7 (counterexample): the claim states the defensive clamp (non-finite or
non-positive computed gain replaced by 1.0) applies in every playback path,
buffered-sample playback included; but `_playSample` applies the raw product:
at volume 0, velocity 127 the computed gain is 0, which is non-positive and is
used as-is, not replaced by 1. -/
theorem c7_counterexample :
    sampleTargetGain 0 127 = 0 ∧ sampleTargetGain 0 127 ≤ 0 ∧
    sampleTargetGain 0 127 ≠ 1 := by
  norm_num [sampleTargetGain, velocityFactor]

/-- C7 (amended): the applied gain is `voiceVolume * (velocity/127)` (with the
JS `|| 1.0` replacing a zero velocity factor); in the breakbeat-slice path a
non-positive product is replaced by full gain 1.0, so the applied breakbeat
gain is always positive, but the buffered-sample path (`_playSample`) applies
the raw product with no clamp. -/
theorem c7_amended (volume velocity : ℚ) :
    (0 < volume * velocityFactor velocity →
      breakbeatTargetGain volume velocity = volume * velocityFactor velocity) ∧
    (volume * velocityFactor velocity ≤ 0 → breakbeatTargetGain volume velocity = 1) ∧
    0 < breakbeatTargetGain volume velocity ∧
    sampleTargetGain volume velocity = volume * velocityFactor velocity := by
  refine ⟨?_, ?_, ?_, rfl⟩
  · intro h1
    rw [breakbeatTargetGain, if_neg (not_le.mpr h1)]
  · intro h1
    rw [breakbeatTargetGain, if_pos h1]
  · by_cases h : volume * velocityFactor velocity ≤ 0
    · rw [breakbeatTargetGain, if_pos h]; norm_num
    · rw [breakbeatTargetGain, if_neg h]; exact lt_of_not_le h

/-- C7 (witness): at volume 0, velocity 127 the product is non-positive, the
breakbeat path clamps it to 1 and the sample path applies the raw product. -/
theorem c7_witness :
    (0 : ℚ) * velocityFactor 127 ≤ 0 ∧ breakbeatTargetGain 0 127 = 1 ∧
    sampleTargetGain 0 127 = 0 * velocityFactor 127 :=
  ⟨by norm_num, (c7_amended 0 127).2.1 (by norm_num), (c7_amended 0 127).2.2.2⟩

/-- C3 (counterexample): the claim concludes that at any instant at most one
breakbeat slice gain envelope is above the near-silence floor, but during the
2ms crossfade both envelopes exceed it: with the hardware clock at 0.5s, a
continuous slice playing at gain 1 and a new slice scheduled at `atTime = 1`
with target gain 1, at the instant 1.0005s — after the new slice has started
and before the old slice stops at 1.002s — the old (fading) envelope is
30001/40000 and the new envelope is 1, both above the 0.0001 floor. -/
theorem c3_counterexample :
    bbStopAtBase (1/2) 1 = 1 ∧ bbStopAt (1/2) 1 = 501/500 ∧
    (1 : ℚ) ≤ 2001/2000 ∧ (2001/2000 : ℚ) < bbStopAt (1/2) 1 ∧
    silenceFloor < fadedSliceGain 1 (bbStopAtBase (1/2) 1) (bbStopAt (1/2) 1) (2001/2000) ∧
    silenceFloor < newSliceGain 1 1 (2001/2000) := by
  have hbase : bbStopAtBase (1/2) 1 = 1 := by
    rw [bbStopAtBase, max_eq_right (by norm_num : (1:ℚ)/2 ≤ 1)]
  have hstop : bbStopAt (1/2) 1 = 501/500 := by
    rw [bbStopAt, hbase, bbFadeOutTime]; norm_num
  refine ⟨hbase, hstop, by norm_num, ?_, ?_, ?_⟩
  · rw [hstop]; norm_num
  · rw [hbase, hstop, fadedSliceGain, if_neg (by norm_num), if_pos (by norm_num)]
    norm_num [silenceFloor]
  · rw [newSliceGain, if_neg (by norm_num)]
    norm_num [silenceFloor]

/-- C3 (amended): when `playBreakbeatSlice` starts a new slice at `atTime`
(scheduled no earlier than the current hardware clock time), every active
breakbeat sound is scheduled to fade and stop at
`max(hardwareClockNow, atTime) + 0.002`, never earlier than the new slice's
own start; outside the 2ms crossfade window
`[max(now, atTime), max(now, atTime) + 0.002)` at most one of the old and new
slice envelopes is above the near-silence floor (inside that window both may
briefly exceed it). -/
theorem c3_amended (now atTime g gNew t : ℚ) (h : now ≤ atTime) :
    atTime ≤ bbStopAt now atTime ∧
    ((t < bbStopAtBase now atTime ∨ bbStopAt now atTime ≤ t) →
      ¬(silenceFloor < fadedSliceGain g (bbStopAtBase now atTime) (bbStopAt now atTime) t ∧
        silenceFloor < newSliceGain gNew atTime t)) := by
  have hb1 : atTime ≤ bbStopAtBase now atTime := le_max_right _ _
  have hb2 : bbStopAtBase now atTime ≤ bbStopAt now atTime := by
    rw [bbStopAt, bbFadeOutTime]; linarith
  have hfloor : (0 : ℚ) < silenceFloor := by norm_num [silenceFloor]
  constructor
  · linarith
  · rintro (hlt | hge) ⟨hold, hnew⟩
    · have hbase : bbStopAtBase now atTime = atTime := max_eq_right h
      rw [hbase] at hlt
      rw [newSliceGain, if_pos hlt] at hnew
      linarith
    · rw [fadedSliceGain, if_neg (not_lt.mpr (le_trans hb2 hge)),
        if_neg (not_lt.mpr hge)] at hold
      linarith

/-- C3 (witness): instance of the amended statement with the clock at 0.5s,
the new slice at 1s and the sampled instant 2s, after the fade window. -/
theorem c3_witness :
    ((1:ℚ)/2 ≤ 1) ∧
    ((1:ℚ) ≤ bbStopAt (1/2) 1 ∧
      (((2:ℚ) < bbStopAtBase (1/2) 1 ∨ bbStopAt (1/2) 1 ≤ 2) →
        ¬(silenceFloor < fadedSliceGain 1 (bbStopAtBase (1/2) 1) (bbStopAt (1/2) 1) 2 ∧
          silenceFloor < newSliceGain 1 1 2))) :=
  ⟨by norm_num, c3_amended (1/2) 1 1 1 2 (by norm_num)⟩

/-- Value of a resized per-slice array at every in-range index: the previous
entry below the old length, the fill value above it. -/
theorem resizeArray_getD {α : Type} (prev : List α) (n : ℕ) (d : α) (i : ℕ) (h : i < n) :
    (resizeArray prev n d).getD i d = if i < prev.length then prev.getD i d else d := by
  rw [resizeArray, List.getD_eq_getElem?_getD, List.getElem?_map, List.getElem?_range h]
  rfl

/-- C8 (counterexample): the claim says the per-slice arrays are resized by
truncating or zero-extending, but the volume array is extended with the
default volume 1, not 0: resizing a four-entry volume array of 1/2 to eight
slices yields entries of 1, not 0, at the new indices. -/
theorem c8_counterexample :
    sliceVolumesResize [1/2, 1/2, 1/2, 1/2] 8 = [1/2, 1/2, 1/2, 1/2, 1, 1, 1, 1] ∧
    sliceVolumesResize [1/2, 1/2, 1/2, 1/2] 8 ≠ [1/2, 1/2, 1/2, 1/2, 0, 0, 0, 0] := by
  constructor
  · rw [sliceVolumesResize, resizeArray]
    norm_num [List.range_succ]
  · intro hcontra
    rw [sliceVolumesResize, resizeArray] at hcontra
    have h4 := congrArg (fun l => l.getD 4 (0:ℚ)) hcontra
    norm_num [List.range_succ] at h4

/-- C8 (amended): whenever the slice count changes, the per-slice mute and
volume arrays are resized to the new slice count; every entry at an index
present in both the old and new arrays keeps its previous value, and indices
beyond the old length are filled with the defaults — `false` for mute and
full volume `1` (not zero) for volume. -/
theorem c8_amended (prevMute : List Bool) (prevVol : List ℚ) (n : ℕ) :
    (sliceMuteResize prevMute n).length = n ∧
    (sliceVolumesResize prevVol n).length = n ∧
    (∀ i, i < prevMute.length → i < n →
      (sliceMuteResize prevMute n).getD i false = prevMute.getD i false) ∧
    (∀ i, i < prevVol.length → i < n →
      (sliceVolumesResize prevVol n).getD i 1 = prevVol.getD i 1) ∧
    (∀ i, prevMute.length ≤ i → i < n → (sliceMuteResize prevMute n).getD i false = false) ∧
    (∀ i, prevVol.length ≤ i → i < n → (sliceVolumesResize prevVol n).getD i 1 = 1) := by
  refine ⟨?_, ?_, ?_, ?_, ?_, ?_⟩
  · simp [sliceMuteResize, resizeArray]
  · simp [sliceVolumesResize, resizeArray]
  · intro i h1 h2
    rw [sliceMuteResize, resizeArray_getD _ _ _ _ h2, if_pos h1]
  · intro i h1 h2
    rw [sliceVolumesResize, resizeArray_getD _ _ _ _ h2, if_pos h1]
  · intro i h1 h2
    rw [sliceMuteResize, resizeArray_getD _ _ _ _ h2, if_neg (not_lt.mpr h1)]
  · intro i h1 h2
    rw [sliceVolumesResize, resizeArray_getD _ _ _ _ h2, if_neg (not_lt.mpr h1)]

/-- C8 (witness): resizing a two-entry mute array to three slices keeps entry
0 and fills entry 2 of the volume array with 1. -/
theorem c8_witness :
    (sliceMuteResize [true, false] 3).getD 0 false = [true, false].getD 0 false ∧
    (sliceVolumesResize [1/2, 1/4] 3).getD 2 1 = 1 :=
  ⟨(c8_amended [true, false] [1/2, 1/4] 3).2.2.1 0 (by norm_num) (by norm_num),
    (c8_amended [true, false] [1/2, 1/4] 3).2.2.2.2.2 2 (by norm_num) (by norm_num)⟩

/-- Specification of the for-loop-with-break scan: a returned offset is the
least one in the scanned range whose cell is active. -/
theorem firstActiveAux_spec (grid : ℕ → Bool) (sr sc : ℤ) (colIndex : ℕ) :
    ∀ (fuel r w : ℕ), firstActiveAux grid sr sc colIndex r fuel = some w →
      r ≤ w ∧ w < r + fuel ∧ cellActiveAt grid sr sc w colIndex = true ∧
      ∀ j, r ≤ j → j < w → cellActiveAt grid sr sc j colIndex = false := by
  intro fuel
  induction fuel with
  | zero =>
      intro r w h
      exact absurd h (by simp [firstActiveAux])
  | succ m ih =>
      intro r w h
      rw [firstActiveAux] at h
      by_cases hc : cellActiveAt grid sr sc r colIndex = true
      · rw [if_pos hc] at h
        obtain rfl := Option.some.inj h
        exact ⟨le_refl _, by omega, hc, fun j hj1 hj2 => absurd hj2 (not_lt.mpr hj1)⟩
      · rw [if_neg hc] at h
        obtain ⟨h1, h2, h3, h4⟩ := ih (r + 1) w h
        refine ⟨by omega, by omega, h3, ?_⟩
        intro j hj1 hj2
        rcases Nat.eq_or_lt_of_le hj1 with heq | hlt
        · rw [← heq]
          exact Bool.eq_false_iff.mpr hc
        · exact h4 j hlt hj2

/-- C10 (confirmed): in breakbeat mode each scheduled step triggers at most
one slice — `scheduleStep` scans the selection rows from the top of the
window in ascending row-index order and hands `playBreakbeatSlice` only the
first row whose grid cell in the step's column is active, and only if that
slice is not muted; active cells in any later (lower) rows of the same column
produce no trigger for that step. -/
theorem c10_single_trigger_topmost (grid : ℕ → Bool) (startRow startCol : ℤ)
    (rowCount colIndex : ℕ) (sliceMuteArr : List Bool) (w : ℕ)
    (h : breakbeatTrigger grid startRow startCol rowCount colIndex sliceMuteArr = some w) :
    w < rowCount ∧ cellActiveAt grid startRow startCol w colIndex = true ∧
    sliceMuteArr.getD w false = false ∧
    ∀ r, r < w → cellActiveAt grid startRow startCol r colIndex = false := by
  rw [breakbeatTrigger] at h
  cases hw : winningSlice grid startRow startCol rowCount colIndex with
  | none => rw [hw] at h; exact absurd h (by simp)
  | some w0 =>
      rw [hw] at h
      dsimp only at h
      by_cases hm : sliceMuteArr.getD w0 false = true
      · rw [if_pos hm] at h; exact absurd h (by simp)
      · rw [if_neg hm] at h
        obtain rfl := Option.some.inj h
        obtain ⟨_, h2, h3, h4⟩ :=
          firstActiveAux_spec grid startRow startCol colIndex rowCount 0 w0 hw
        exact ⟨by omega, h3, Bool.eq_false_iff.mpr hm,
          fun r hr => h4 r (Nat.zero_le r) hr⟩

/-- Concrete 64x64 grid with a single active cell at row 1, column 1
(row-major index 65). -/
def c10Grid : ℕ → Bool := fun i => i == 65

/-- C10 (witness): on `c10Grid` with the window at the origin, four rows and
no muted slice, the step in column 1 triggers exactly slice 1, which is the
first active row and unmuted, and row 0 above it is inactive. -/
theorem c10_witness :
    1 < 4 ∧ cellActiveAt c10Grid 0 0 1 1 = true ∧
    (List.replicate 8 false).getD 1 false = false := by
  have h := c10_single_trigger_topmost c10Grid 0 0 4 1 (List.replicate 8 false) 1 (by decide)
  exact ⟨h.1, h.2.1, h.2.2.1⟩

/-- With no pending change staged, the pending check leaves the state alone. -/
theorem applyPendingChange_of_none {s : SchedUIState} (h : s.pendingChange = none) :
    applyPendingChange s = s := by
  unfold applyPendingChange
  rw [h]

/-- State after one loop iteration with no pending change staged. -/
theorem schedIterate_fst_of_none {s : SchedUIState} (h : s.pendingChange = none) :
    (schedIterate s).1 =
      { s with
        nextStepTime := s.nextStepTime + s.stepIntervalSec,
        currentCol := (s.currentCol + 1) % max 1 s.selectionRefVal.length } := by
  simp only [schedIterate, applyPendingChange_of_none h]

/-- Step emitted by one loop iteration with no pending change staged. -/
theorem schedIterate_snd_of_none {s : SchedUIState} (h : s.pendingChange = none) :
    (schedIterate s).2 = ⟨s.currentCol, s.nextStepTime, s.selectionRefVal⟩ := by
  simp only [schedIterate, applyPendingChange_of_none h]

/-- Invariants of a pending-free sustained run: the pending slot stays empty,
the selection and interval are untouched, the next step time advances by
exactly one interval per iteration and the cursor counts modulo the window
length. -/
theorem schedRunN_of_none :
    ∀ (n : ℕ) (s : SchedUIState), s.pendingChange = none →
      s.currentCol < max 1 s.selectionRefVal.length →
      (schedRunN n s).pendingChange = none ∧
      (schedRunN n s).selectionRefVal = s.selectionRefVal ∧
      (schedRunN n s).stepIntervalSec = s.stepIntervalSec ∧
      (schedRunN n s).nextStepTime = s.nextStepTime + n * s.stepIntervalSec ∧
      (schedRunN n s).currentCol = (s.currentCol + n) % max 1 s.selectionRefVal.length ∧
      (schedRunN n s).currentCol < max 1 s.selectionRefVal.length := by
  intro n
  induction n with
  | zero =>
      intro s h hc
      refine ⟨h, rfl, rfl, by simp [schedRunN], ?_, hc⟩
      show s.currentCol = (s.currentCol + 0) % max 1 s.selectionRefVal.length
      rw [Nat.add_zero, Nat.mod_eq_of_lt hc]
  | succ m ih =>
      intro s h hc
      have hfst := schedIterate_fst_of_none h
      have h01 : 0 < max 1 s.selectionRefVal.length :=
        lt_of_lt_of_le one_pos (le_max_left 1 _)
      have e1 : (schedIterate s).1.pendingChange = none := by rw [hfst]; exact h
      have e2 : (schedIterate s).1.selectionRefVal = s.selectionRefVal := by rw [hfst]
      have e3 : (schedIterate s).1.stepIntervalSec = s.stepIntervalSec := by rw [hfst]
      have e4 : (schedIterate s).1.nextStepTime = s.nextStepTime + s.stepIntervalSec := by
        rw [hfst]
      have e5 : (schedIterate s).1.currentCol =
          (s.currentCol + 1) % max 1 s.selectionRefVal.length := by rw [hfst]
      have hc1 : (schedIterate s).1.currentCol <
          max 1 (schedIterate s).1.selectionRefVal.length := by
        rw [e5, e2]
        exact Nat.mod_lt _ h01
      obtain ⟨p1, p2, p3, p4, p5, p6⟩ := ih (schedIterate s).1 e1 hc1
      have hrun : schedRunN (m + 1) s = schedRunN m (schedIterate s).1 := rfl
      rw [hrun]
      refine ⟨p1, p2.trans e2, p3.trans e3, ?_, ?_, ?_⟩
      · rw [p4, e4, e3]
        push_cast
        ring
      · rw [p5, e5, e2, Nat.mod_add_mod]
        have harith : s.currentCol + 1 + m = s.currentCol + (m + 1) := by omega
        rw [harith]
      · rw [e2] at p6
        exact p6

/-- C1 (confirmed): while the transport is Running under sustained play (no
pending selection change), every iteration of the scheduler lookahead loop
advances `nextStepTime` by exactly one step interval — which is positive for
every BPM in 1..999 and every note-length divisor, so `nextStepTime` is
strictly increasing across consecutive scheduled steps — and advances the
cursor to `(cursor + 1) % L` for the current selection length `L >= 1`; from
a fresh start (cursor 0) the n-th iteration holds cursor `n % L`, so the
cursor visits 0, 1, ..., L-1, 0, 1, ... with no skipped or repeated index. -/
theorem c1_scheduler_advance (bpm : ℚ) (nl : NoteLength) (s : SchedUIState) (L : ℕ)
    (hbpm1 : 1 ≤ bpm) (hbpm2 : bpm ≤ 999)
    (hint : s.stepIntervalSec = stepIntervalSec bpm nl)
    (hpend : s.pendingChange = none)
    (hL : s.selectionRefVal.length = L) (hL1 : 1 ≤ L) (hc0 : s.currentCol = 0) :
    0 < stepIntervalSec bpm nl ∧
    (schedIterate s).1.nextStepTime = s.nextStepTime + stepIntervalSec bpm nl ∧
    (schedIterate s).1.currentCol = (s.currentCol + 1) % L ∧
    (∀ n : ℕ,
      (schedRunN n s).nextStepTime = s.nextStepTime + n * stepIntervalSec bpm nl ∧
      (schedRunN n s).nextStepTime < (schedRunN (n + 1) s).nextStepTime ∧
      (schedRunN n s).currentCol = n % L ∧
      (schedIterate (schedRunN n s)).2.stepIndex = n % L) := by
  have hdpos : 0 < stepIntervalSec bpm nl := by
    rw [stepIntervalSec]
    refine div_pos (div_pos (by norm_num) (by linarith)) ?_
    cases nl <;> norm_num [noteDivisor]
  have hmax : max 1 s.selectionRefVal.length = L := by
    rw [hL, max_eq_right hL1]
  have hcb : s.currentCol < max 1 s.selectionRefVal.length := by
    rw [hmax, hc0]
    omega
  refine ⟨hdpos, ?_, ?_, ?_⟩
  · rw [schedIterate_fst_of_none hpend, ← hint]
  · rw [schedIterate_fst_of_none hpend]
    show (s.currentCol + 1) % max 1 s.selectionRefVal.length = (s.currentCol + 1) % L
    rw [hmax]
  · intro n
    obtain ⟨p1, p2, p3, p4, p5, p6⟩ := schedRunN_of_none n s hpend hcb
    obtain ⟨q1, q2, q3, q4, q5, q6⟩ := schedRunN_of_none (n + 1) s hpend hcb
    refine ⟨by rw [p4, hint], ?_, ?_, ?_⟩
    · rw [p4, q4, hint]
      have he : ((n : ℚ) + 1) * stepIntervalSec bpm nl =
          (n : ℚ) * stepIntervalSec bpm nl + stepIntervalSec bpm nl := by ring
      push_cast
      rw [he]
      linarith
    · rw [p5, hmax, hc0, Nat.zero_add]
    · rw [schedIterate_snd_of_none p1]
      show (schedRunN n s).currentCol = n % L
      rw [p5, hmax, hc0, Nat.zero_add]

/-- Concrete Running state: playback started at audio time 1s, first step at
1.05s, cursor 0, selection 8 steps long, 175 BPM eighth notes. -/
def c1State : SchedUIState :=
  ⟨⟨30, 28, 8⟩, none, 21/20, 0, 1, stepIntervalSec 175 NoteLength.eighth⟩

/-- C1 (witness): instance of the sustained-play run on `c1State` after three
iterations. -/
theorem c1_witness :
    0 < stepIntervalSec 175 NoteLength.eighth ∧
    (schedRunN 3 c1State).currentCol = 3 % 8 ∧
    (schedRunN 3 c1State).nextStepTime =
      c1State.nextStepTime + (3 : ℕ) * stepIntervalSec 175 NoteLength.eighth := by
  have h := c1_scheduler_advance 175 NoteLength.eighth c1State 8 (by norm_num) (by norm_num)
    rfl rfl rfl (by norm_num) rfl
  exact ⟨h.1, (h.2.2.2 3).2.2.1, (h.2.2.2 3).1⟩

/-! ### C2 failing trace

Concrete Running state for the pending-change claim: step interval 0.5s,
playback origin `absoluteTime = 0`, next unscheduled step at audio time 1.0s,
cursor 2, old selection of length 4.  The user edits the selection to a new
window at audio time 0.99s — less than 25ms before the 1.0s step boundary, so
the staged switch time becomes `0.99 + 0.025 = 1.015`.  A scheduler tick at
audio time 0.992s then emits the step at time 1.0s. -/

def c2OldSel : Selection := ⟨30, 28, 4⟩

def c2NewSel : Selection := ⟨30, 10, 8⟩

def c2Start : SchedUIState := ⟨c2OldSel, none, 1, 2, 0, 1/2⟩

/-- Expected state right after the 0.99s edit: the scheduler-visible selection
is already the new one, the pending record targets switch time 1.015. -/
def c2Mid : SchedUIState := ⟨c2NewSel, some (c2NewSel, 203/200), 1, 2, 0, 1/2⟩

theorem c2_edit_eval : applySelectionEdit (99/100) c2NewSel c2Start = c2Mid := by
  have hceil : (⌈((99:ℚ)/100 - 0) / (1/2 : ℚ)⌉ : ℤ) = 2 := by
    rw [Int.ceil_eq_iff]
    norm_num
  have hsw : max ((99:ℚ)/100 + minSwitchLead)
      (0 + (⌈((99:ℚ)/100 - 0) / (1/2 : ℚ)⌉ : ℚ) * (1/2)) = 203/200 := by
    rw [hceil, minSwitchLead]
    rw [show ((0:ℚ) + ((2:ℤ):ℚ) * (1/2)) = 1 by norm_num]
    rw [max_eq_left (by norm_num : (1:ℚ) ≤ 99/100 + 1/40)]
    norm_num
  show (SchedUIState.mk c2NewSel
      (some (c2NewSel, max ((99:ℚ)/100 + minSwitchLead)
        (0 + (⌈((99:ℚ)/100 - 0) / (1/2 : ℚ)⌉ : ℚ) * (1/2)))) 1 2 0 (1/2)) = c2Mid
  rw [hsw]
  rfl

theorem c2_iter_eval :
    schedIterate c2Mid =
      (⟨c2NewSel, some (c2NewSel, 203/200), 3/2, 3, 0, 1/2⟩, ⟨2, 1, c2NewSel⟩) := by
  have hpend : applyPendingChange c2Mid = c2Mid := by
    show (if (203:ℚ)/200 ≤ (1:ℚ) then _ else c2Mid) = c2Mid
    rw [if_neg (by norm_num : ¬ (203:ℚ)/200 ≤ (1:ℚ))]
  show ({ applyPendingChange c2Mid with
      nextStepTime :=
        (applyPendingChange c2Mid).nextStepTime + (applyPendingChange c2Mid).stepIntervalSec,
      currentCol := ((applyPendingChange c2Mid).currentCol + 1) %
        max 1 (applyPendingChange c2Mid).selectionRefVal.length },
    (⟨(applyPendingChange c2Mid).currentCol, (applyPendingChange c2Mid).nextStepTime,
      (applyPendingChange c2Mid).selectionRefVal⟩ : EmittedStep)) = _
  rw [hpend]
  show ((⟨c2NewSel, some (c2NewSel, 203/200), 1 + 1/2, (2 + 1) % max 1 8, 0, 1/2⟩ :
      SchedUIState), (⟨2, 1, c2NewSel⟩ : EmittedStep)) = _
  norm_num

theorem c2_tick_eval : (schedulerTick 4 (124/125) c2Mid).2 = [⟨2, 1, c2NewSel⟩] := by
  have h1 : c2Mid.nextStepTime < 124/125 + 1/10 := by
    show (1 : ℚ) < 124/125 + 1/10
    norm_num
  have h2 : ¬ ((⟨c2NewSel, some (c2NewSel, 203/200), 3/2, 3, 0, 1/2⟩ :
      SchedUIState).nextStepTime < 124/125 + 1/10) := by
    show ¬ ((3 : ℚ)/2 < 124/125 + 1/10)
    norm_num
  show (schedulerTick (3 + 1) (124/125) c2Mid).2 = _
  rw [schedulerTick, if_pos h1, c2_iter_eval]
  show (⟨2, 1, c2NewSel⟩ : EmittedStep) ::
      (schedulerTick (2 + 1) (124/125)
        (⟨c2NewSel, some (c2NewSel, 203/200), 3/2, 3, 0, 1/2⟩ : SchedUIState)).2 =
    [⟨2, 1, c2NewSel⟩]
  rw [schedulerTick, if_neg h2]

/-- C2 (code evaluated at the failing input): with playback running at step
interval 0.5s and the next step due at audio time 1.0s, a selection edit at
audio time 0.99s stages a pending switch time of 1.015s (the step boundary at
least 25ms after the edit, as the claim requires) — but it also replaces the
scheduler-visible selection immediately, because the keep-refs-in-sync effect
copies the edited selection straight into `selectionRef`.  The scheduler tick
at audio time 0.992s therefore emits the step at time 1.0s — before the
1.015s boundary, with the pending record still staged — against the new
selection window, contradicting the claim that the old window is used until
the boundary. -/
theorem c2_selection_edit_not_quantized :
    applySelectionEdit (99/100) c2NewSel c2Start = c2Mid ∧
    c2Mid.selectionRefVal = c2NewSel ∧
    c2Mid.pendingChange = some (c2NewSel, 203/200) ∧
    (99 : ℚ)/100 + minSwitchLead ≤ 203/200 ∧
    (schedulerTick 4 (124/125) c2Mid).2 = [⟨2, 1, c2NewSel⟩] ∧
    (1 : ℚ) < 203/200 :=
  ⟨c2_edit_eval, rfl, rfl, by norm_num [minSwitchLead], c2_tick_eval, by norm_num⟩
